import Mathlib

/-!
# tunny client: stream framer, request relay, supervisor result, configuration

A shallow embedding of `internal/common/proto.go`, of `handleStream` and the tail of
`runConnect` in `internal/cli/connect.go`, and of `internal/cli/config.go`.

Go strings and byte slices are lists of bytes.  A stream (`io.Reader` side of a
`net.Conn`) is the list of bytes it will still deliver followed by the error it reports
once they are exhausted (`io.EOF` for a clean end).  Library functions the code calls but
does not define (`http.ReadRequest`, `net.Dial`, `Request.Write`, `http.ReadResponse`,
`Response.Write`, `Header.Write`) are parameters.
-/

namespace Tunny

/-! ## Bytes, strings, errors -/

/-- One octet. -/
abbrev Byte := Fin 256

/-- A Go `string` or `[]byte`: a sequence of octets. -/
abbrev GoString := List Byte

/-- Truncation of a number to a byte, as in Go's `byte(v)`. -/
def toByte (n : Nat) : Byte := ⟨n % 256, Nat.mod_lt _ (by decide)⟩

/-- The bytes of an ASCII string literal of the source. -/
def lit (s : String) : GoString := s.data.map (fun c => toByte c.toNat)

/-- Go `error` values that come out of the library: `io.EOF`, `io.ErrUnexpectedEOF`, and any
other error, told apart by its message; `nil` is `none` of `Option GoError`. -/
inductive GoError where
  | EOF
  | ErrUnexpectedEOF
  | other (msg : String)
  deriving DecidableEq, Repr

/-- Errors of `ReadHTTPRequestHead`: one passed on from the reader, or the value that
`fmt.Errorf("head too large")` makes, which no reader returns. -/
inductive HeadError where
  | io (err : GoError)
  | headTooLarge
  deriving DecidableEq, Repr

deriving instance DecidableEq for Except

/-! ## Readers and writers -/

/-- The read side of a connection: the bytes still to come and the error that `Read`
returns after the last of them (`GoError.EOF` when the peer closes cleanly). -/
structure Stream where
  data : List Byte
  closeErr : GoError
  deriving DecidableEq, Repr

/-- Result of `io.ReadFull(src, buf)` with `len(buf) = n`: the bytes placed in `buf`, the error,
and the stream afterwards.  With `n = 0` the loop of `io.ReadAtLeast` does not run. -/
def ReadFull (src : Stream) (n : Nat) : List Byte × Option GoError × Stream :=
  if n ≤ src.data.length then
    (src.data.take n, none, { src with data := src.data.drop n })
  else
    (src.data,
     some (if src.closeErr = GoError.EOF then
             (if src.data.length = 0 then GoError.EOF else GoError.ErrUnexpectedEOF)
           else src.closeErr),
     { src with data := [] })

/-- Result of `io.Copy(&buf, io.LimitReader(src, limit))` into a `strings.Builder`: the bytes
copied, the error, and the stream afterwards.  The limited reader reports `io.EOF` once
`limit` bytes went through, and `io.Copy` turns `io.EOF` into a nil error. -/
def CopyLimit (src : Stream) (limit : Nat) : List Byte × Option GoError × Stream :=
  if limit ≤ src.data.length then
    (src.data.take limit, none, { src with data := src.data.drop limit })
  else
    (src.data,
     (if src.closeErr = GoError.EOF then none else some src.closeErr),
     { src with data := [] })

/-- Result of `io.CopyN(&buf, src, n)`: `io.Copy` through a limited reader, then an `io.EOF`
error when fewer than `n` bytes were copied without error. -/
def CopyN (src : Stream) (n : Nat) : List Byte × Option GoError × Stream :=
  match CopyLimit src n with
  | (b, err, s) =>
    if b.length = n then (b, none, s)
    else if b.length < n ∧ err = none then (b, some GoError.EOF, s)
    else (b, err, s)

/-- An `io.Writer`: what it has accepted so far, and how many more bytes it takes before
it fails (`none`: it never fails). -/
structure Writer where
  written : List Byte
  room : Option Nat
  deriving DecidableEq, Repr

/-- One call `w.Write(p)`: the writer afterwards, the count `n`, and the error, which is
non-nil exactly when `n < len(p)`. -/
def Writer.Write (w : Writer) (p : List Byte) : Writer × Nat × Option GoError :=
  match w.room with
  | none => ({ w with written := w.written ++ p }, p.length, none)
  | some k =>
    if p.length ≤ k then
      ({ written := w.written ++ p, room := some (k - p.length) }, p.length, none)
    else
      ({ written := w.written ++ p.take k, room := some 0 }, k, some (GoError.other "short write"))

/-- The writer takes `k` more bytes without failing. -/
def Writer.accepts (w : Writer) (k : Nat) : Prop :=
  match w.room with
  | none => True
  | some r => k ≤ r

instance (w : Writer) (k : Nat) : Decidable (w.accepts k) := by
  unfold Writer.accepts
  split <;> infer_instance

/-! ## encoding/binary, big endian uint64 -/

/-- Conversion `uint64(x)` of a non-negative `int`. -/
def uint64 (n : Nat) : Nat := n % 2 ^ 64

/-- The function `binary.BigEndian.PutUint64`: most significant byte first. -/
def putUint64 (v : Nat) : List Byte :=
  [toByte (v >>> 56), toByte (v >>> 48), toByte (v >>> 40), toByte (v >>> 32),
   toByte (v >>> 24), toByte (v >>> 16), toByte (v >>> 8), toByte v]

/-- The function `binary.BigEndian.Uint64` on a slice; bytes missing from a short slice
count as zero (the code only calls it on eight bytes). -/
def getUint64 (b : List Byte) : Nat :=
  ((b.getD 7 0).val ||| (b.getD 6 0).val <<< 8 ||| (b.getD 5 0).val <<< 16
    ||| (b.getD 4 0).val <<< 24 ||| (b.getD 3 0).val <<< 32 ||| (b.getD 2 0).val <<< 40
    ||| (b.getD 1 0).val <<< 48 ||| (b.getD 0 0).val <<< 56) % 2 ^ 64

/-- Result of `binary.Write(dst, binary.BigEndian, v)` for a `uint64`: one `Write` of the eight bytes. -/
def binaryWrite (dst : Writer) (v : Nat) : Writer × Option GoError :=
  match dst.Write (putUint64 v) with
  | (w, _, err) => (w, err)

/-- Result of `binary.Read(src, binary.BigEndian, &n)` for a `uint64`: `io.ReadFull` of eight bytes,
then the decoding. -/
def binaryRead (src : Stream) : Except GoError Nat × Stream :=
  match ReadFull src 8 with
  | (_, some err, s) => (Except.error err, s)
  | (bs, none, s) => (Except.ok (getUint64 bs), s)

/-! ## internal/common/proto.go -/

/-- The fields of `*http.Request` that `WriteHTTPRequestHead` reads.  `RequestURI` is the value of
`r.URL.RequestURI()`, `Header` the header map as a list. -/
structure HeadRequest where
  Method : GoString
  RequestURI : GoString
  ProtoMajor : Int
  ProtoMinor : Int
  Header : List (GoString × List GoString)

/-- The verb `%d` of `fmt` on an `int`. -/
def fmtInt (i : Int) : GoString :=
  match i with
  | Int.ofNat n => lit (toString n)
  | Int.negSucc n => lit "-" ++ lit (toString (n + 1))

/-- The buffer `buf` of `WriteHTTPRequestHead` before the length prefix is written: request line,
headers as `r.Header.Write` emits them, and the closing CRLF. -/
def headBytes (headerWrite : List (GoString × List GoString) → GoString) (r : HeadRequest) :
    GoString :=
  let uri := if r.RequestURI = [] then lit "/" else r.RequestURI
  let line := r.Method ++ lit " " ++ uri ++ lit " HTTP/" ++ fmtInt r.ProtoMajor ++ lit "."
    ++ fmtInt r.ProtoMinor ++ lit "\r\n"
  line ++ headerWrite r.Header ++ lit "\r\n"

/-- The function `WriteHTTPRequestHead`: the writer afterwards, the returned count and error. -/
def WriteHTTPRequestHead (headerWrite : List (GoString × List GoString) → GoString)
    (dst : Writer) (r : HeadRequest) : Writer × Int × Option GoError :=
  let buf := headBytes headerWrite r
  match binaryWrite dst (uint64 buf.length) with
  | (w, some err) => (w, 0, some err)
  | (w, none) =>
    match w.Write buf with
    | (w2, n, err) => (w2, (n : Int), err)

/-- The function `ReadHTTPRequestHead`: the contents of the returned reader or the error, and the
stream afterwards. -/
def ReadHTTPRequestHead (src : Stream) : Except HeadError (List Byte) × Stream :=
  match binaryRead src with
  | (Except.error err, s) => (Except.error (HeadError.io err), s)
  | (Except.ok n, s) =>
    if n > 10 <<< 20 then (Except.error HeadError.headTooLarge, s)
    else
      match ReadFull s n with
      | (_, some err, s2) => (Except.error (HeadError.io err), s2)
      | (b, none, s2) => (Except.ok b, s2)

/-! ## internal/cli/connect.go: handleStream -/

/-- The fields of the `*http.Request` returned by `http.ReadRequest` that `handleStream` uses.
`TransferEncoding` is `none` for a nil slice. -/
structure Request where
  Method : GoString
  Path : GoString
  ContentLength : Int
  TransferEncoding : Option (List GoString)
  Header : List (GoString × List GoString)
  deriving DecidableEq, Repr

/-- The fields of `http.Response` that `handleStream` sets. -/
structure Response where
  StatusCode : Int
  Proto : GoString
  ProtoMajor : Int
  ProtoMinor : Int
  Header : List (GoString × List GoString)
  Body : List Byte
  deriving DecidableEq, Repr

/-- The method `Header.Set` with a key already in canonical form: the key maps to the one value. -/
def headerSet (h : List (GoString × List GoString)) (key value : GoString) :
    List (GoString × List GoString) :=
  (key, [value]) :: h.filter (fun kv => decide (kv.1 ≠ key))

/-- The library and the local network as `handleStream` sees them. -/
structure Env where
  /-- The result of `http.ReadRequest` on a reader holding the given head bytes. -/
  ReadRequest : List Byte → Except GoError Request
  /-- The error of `net.Dial("tcp", target)`, `none` when the connection is made. -/
  Dial : GoString → Option GoError
  /-- The error of `req.Write(up)` for the request and the body installed in `req.Body`. -/
  reqWrite : Request → List Byte → Option GoError
  /-- The result of `http.ReadResponse` on the local connection after that request. -/
  ReadResponse : Request → List Byte → Except GoError Response

/-- What `handleStream` does to the outside, in order. -/
inductive Event where
  | dial (target : GoString)
  | forward (req : Request) (body : List Byte)
  | readResponse
  | writeResponse (resp : Response)
  | closeUp
  | closeStream
  deriving DecidableEq, Repr

/-- The end state of one `handleStream` call: its effects, the read side of the stream afterwards,
and the contents of `req.Body` when the body block was passed. -/
structure Outcome where
  events : List Event
  stream : Stream
  body : Option (List Byte)
  deriving DecidableEq, Repr

/-- The body block of `handleStream` (the `if req.ContentLength > 0 || req.TransferEncoding != nil`
statement): the contents of the new `req.Body`, or the error on which the function returns. -/
def readBody (req : Request) (stream : Stream) : Except GoError (List Byte) × Stream :=
  if req.ContentLength > 0 ∨ req.TransferEncoding ≠ none then
    if req.ContentLength > 0 then
      match CopyN stream req.ContentLength.toNat with
      | (_, some err, s) => (Except.error err, s)
      | (buf, none, s) => (Except.ok buf, s)
    else
      match CopyLimit stream (10 * 1024 * 1024) with
      | (_, some err, s) => (Except.error err, s)
      | (buf, none, s) => (Except.ok buf, s)
  else
    (Except.ok [], stream)

/-- The response built when `net.Dial` fails. -/
def badGateway : Response :=
  let resp : Response :=
    { StatusCode := 502, Proto := lit "HTTP/1.1", ProtoMajor := 1, ProtoMinor := 1,
      Header := [], Body := lit "local target unavailable" }
  { resp with Header := headerSet resp.Header (lit "Content-Type") (lit "text/plain") }

/-- The part of `handleStream` from `net.Dial` on, with the request `req`, the contents `body` of
its new `req.Body`, and the read side `s2` of the stream after the body block. -/
def dialAndForward (env : Env) (req : Request) (body : List Byte) (s2 : Stream)
    (target : GoString) : Outcome :=
  match env.Dial target with
  | some _ =>
    ⟨[Event.dial target, Event.writeResponse badGateway, Event.closeStream], s2, some body⟩
  | none =>
    match env.reqWrite req body with
    | some _ =>
      ⟨[Event.dial target, Event.forward req body, Event.closeUp, Event.closeStream],
        s2, some body⟩
    | none =>
      match env.ReadResponse req body with
      | Except.error _ =>
        ⟨[Event.dial target, Event.forward req body, Event.readResponse, Event.closeUp,
          Event.closeStream], s2, some body⟩
      | Except.ok resp =>
        ⟨[Event.dial target, Event.forward req body, Event.readResponse,
          Event.writeResponse resp, Event.closeUp, Event.closeStream], s2, some body⟩

/-- The function `handleStream`.  Log calls are left out; the deferred closes run last. -/
def handleStream (env : Env) (stream : Stream) (target : GoString) : Outcome :=
  match ReadHTTPRequestHead stream with
  | (Except.error _, s) => ⟨[Event.closeStream], s, none⟩
  | (Except.ok head, s) =>
    match env.ReadRequest head with
    | Except.error _ => ⟨[Event.closeStream], s, none⟩
    | Except.ok req =>
      match readBody req s with
      | (Except.error _, s2) => ⟨[Event.closeStream], s2, none⟩
      | (Except.ok body, s2) => dialAndForward env req body s2 target

/-- The relay called `net.Dial`. -/
def Event.isDial : Event → Bool
  | Event.dial _ => true
  | _ => false

/-- The relay wrote a request to the local connection. -/
def Event.isForward : Event → Bool
  | Event.forward _ _ => true
  | _ => false

/-- The relay wrote a response to the stream. -/
def Event.isWriteResponse : Event → Bool
  | Event.writeResponse _ => true
  | _ => false

/-! ## internal/cli/connect.go: the end of runConnect -/

/-- The accept goroutine of `runConnect` over the successive results of `sess.AcceptStream()`:
the streams handed to `handleStream` and the error sent on `errCh` (`none` while
`AcceptStream` has not failed). -/
def acceptLoop : List (Except GoError Stream) → List Stream × Option GoError
  | [] => ([], none)
  | Except.error err :: _ => ([], some err)
  | Except.ok stream :: rest => (stream :: (acceptLoop rest).1, (acceptLoop rest).2)

/-- The case of the final `select` that fires: the signal channel, or a value received from `errCh`. -/
inductive Wakeup where
  | signal
  | errCh (err : Option GoError)
  deriving DecidableEq, Repr

/-- The return value of `runConnect` from its final `select`. -/
def runConnectSelect : Wakeup → Option GoError
  | Wakeup.signal => none
  | Wakeup.errCh err => if err ≠ none ∧ err ≠ some GoError.EOF then err else none

/-! ## internal/cli/config.go and the configuration block of runConnect -/

/-- The type `Config`. -/
structure Config where
  Token : GoString
  Subdomain : GoString
  deriving DecidableEq, Repr

/-- The function `DefaultConfig`. -/
def DefaultConfig : Config := { Token := [], Subdomain := [] }

/-- What `loadConfigFile` finds: no file (an error for which `os.IsNotExist` holds), another
failure (home directory, read, JSON syntax), or a JSON object whose `token` and `subdomain`
members are strings when present. -/
inductive ConfigFile where
  | notExist
  | failure (msg : String)
  | object (token subdomain : Option GoString)
  deriving DecidableEq, Repr

/-- Errors of `loadConfigFile`. -/
inductive LoadError where
  | notExist
  | failure (msg : String)
  deriving DecidableEq, Repr

/-- The predicate `os.IsNotExist`. -/
def IsNotExist : LoadError → Bool
  | LoadError.notExist => true
  | LoadError.failure _ => false

/-- The function `loadConfigFile`: `json.Unmarshal` overwrites the fields the object names. -/
def loadConfigFile (file : ConfigFile) (cfg : Config) : Config × Option LoadError :=
  match file with
  | ConfigFile.notExist => (cfg, some LoadError.notExist)
  | ConfigFile.failure msg => (cfg, some (LoadError.failure msg))
  | ConfigFile.object token subdomain =>
    ({ Token := token.getD cfg.Token, Subdomain := subdomain.getD cfg.Subdomain }, none)

/-- The function `loadFromEnv`; `getenv` is `os.Getenv`. -/
def loadFromEnv (getenv : GoString → GoString) (cfg : Config) : Config :=
  let cfg1 := if getenv (lit "TUNNY_TOKEN") ≠ [] then
    { cfg with Token := getenv (lit "TUNNY_TOKEN") } else cfg
  if getenv (lit "TUNNY_SUBDOMAIN") ≠ [] then
    { cfg1 with Subdomain := getenv (lit "TUNNY_SUBDOMAIN") } else cfg1

/-- The function `LoadConfig`. -/
def LoadConfig (file : ConfigFile) (getenv : GoString → GoString) : Except LoadError Config :=
  match loadConfigFile file DefaultConfig with
  | (cfg, some err) =>
    if !IsNotExist err then Except.error err else Except.ok (loadFromEnv getenv cfg)
  | (cfg, none) => Except.ok (loadFromEnv getenv cfg)

/-- The configuration block of `runConnect`: from the flag variables `token` and `subdomain` to
their values when the server URL is built, or the error returned. -/
def runConnectConfig (token subdomain : GoString) (file : ConfigFile)
    (getenv : GoString → GoString) : Except LoadError (GoString × GoString) :=
  match LoadConfig file getenv with
  | Except.error err => Except.error err
  | Except.ok cfg =>
    let token := if token = [] then cfg.Token else token
    let subdomain := if subdomain = [] then cfg.Subdomain else subdomain
    Except.ok (token, subdomain)

/-! ## Concrete inputs -/

/-- A request as `http.ReadRequest` returns it for `POST /upload`, with the given `ContentLength`
and `TransferEncoding`. -/
def exRequest (cl : Int) (te : Option (List GoString)) : Request :=
  { Method := lit "POST", Path := lit "/upload", ContentLength := cl, TransferEncoding := te,
    Header := [] }

/-- The answer of the local target in the examples. -/
def exResponse : Response :=
  { StatusCode := 200, Proto := lit "HTTP/1.1", ProtoMajor := 1, ProtoMinor := 1,
    Header := [], Body := lit "ok" }

/-- An environment in which `http.ReadRequest` turns the bytes `head` into `req` and refuses any
other head, `net.Dial` returns `dialErr`, and the local target takes the request and answers. -/
def exEnv (head : List Byte) (req : Request) (dialErr : Option GoError) : Env :=
  { ReadRequest := fun h =>
      if h = head then Except.ok req else Except.error (GoError.other "malformed HTTP request")
    Dial := fun _ => dialErr
    reqWrite := fun _ _ => none
    ReadResponse := fun _ _ => Except.ok exResponse }

/-- The local target of the examples. -/
def exTarget : GoString := lit "localhost:3000"

/-- A head that declares five body bytes. -/
def headLength5 : List Byte := lit "POST /upload HTTP/1.1\r\nContent-Length: 5\r\n\r\n"

/-- A head with neither `Content-Length` nor `Transfer-Encoding`. -/
def headPlain : List Byte := lit "POST /upload HTTP/1.1\r\nHost: app\r\n\r\n"

/-- A head with `Transfer-Encoding: chunked` and no `Content-Length`. -/
def headChunked : List Byte := lit "POST /upload HTTP/1.1\r\nTransfer-Encoding: chunked\r\n\r\n"

/-- A head that declares 10485761 body bytes. -/
def headLengthBig : List Byte := lit "POST /upload HTTP/1.1\r\nContent-Length: 10485761\r\n\r\n"

/-- A body of 10485761 zero bytes, one more than 10 MiB. -/
def bigBody : List Byte := List.replicate 10485761 0

/-- The bytes of a framed head followed by `rest`, as they arrive on a stream. -/
def framed (head rest : List Byte) : List Byte := putUint64 head.length ++ head ++ rest

/-! ## Lemmas on the byte order and the readers -/

theorem or_shiftLeft_eq_add (lo hi i : Nat) (h : lo < 2 ^ i) :
    lo ||| hi <<< i = lo + hi * 2 ^ i := by
  rw [Nat.shiftLeft_eq, Nat.or_comm, Nat.mul_comm, ← Nat.mul_add_lt_is_or h, Nat.add_comm]

theorem getUint64_cons (b0 b1 b2 b3 b4 b5 b6 b7 : Byte) :
    getUint64 [b0, b1, b2, b3, b4, b5, b6, b7]
      = b7.val + b6.val * 2 ^ 8 + b5.val * 2 ^ 16 + b4.val * 2 ^ 24 + b3.val * 2 ^ 32
        + b2.val * 2 ^ 40 + b1.val * 2 ^ 48 + b0.val * 2 ^ 56 := by
  have h0 := b0.isLt
  have h1 := b1.isLt
  have h2 := b2.isLt
  have h3 := b3.isLt
  have h4 := b4.isLt
  have h5 := b5.isLt
  have h6 := b6.isLt
  have h7 := b7.isLt
  simp only [getUint64, List.getD_cons_zero, List.getD_cons_succ]
  rw [or_shiftLeft_eq_add _ _ 8 (by omega), or_shiftLeft_eq_add _ _ 16 (by omega),
    or_shiftLeft_eq_add _ _ 24 (by omega), or_shiftLeft_eq_add _ _ 32 (by omega),
    or_shiftLeft_eq_add _ _ 40 (by omega), or_shiftLeft_eq_add _ _ 48 (by omega),
    or_shiftLeft_eq_add _ _ 56 (by omega)]
  apply Nat.mod_eq_of_lt
  omega

theorem getUint64_putUint64 (n : Nat) (h : n < 2 ^ 64) : getUint64 (putUint64 n) = n := by
  unfold putUint64
  rw [getUint64_cons]
  simp only [toByte, Nat.shiftRight_eq_div_pow]
  omega

theorem length_putUint64 (n : Nat) : (putUint64 n).length = 8 := rfl

theorem shift_const : (10 <<< 20 : Nat) = 10485760 := by decide

theorem mul_const : (10 * 1024 * 1024 : Nat) = 10485760 := by decide

theorem ReadFull_of_le (src : Stream) (n : Nat) (h : n ≤ src.data.length) :
    ReadFull src n = (src.data.take n, none, ⟨src.data.drop n, src.closeErr⟩) := by
  simp [ReadFull, h]

theorem ReadFull_of_lt (src : Stream) (n : Nat) (h : src.data.length < n) :
    ReadFull src n = (src.data,
      some (if src.closeErr = GoError.EOF then
              (if src.data.length = 0 then GoError.EOF else GoError.ErrUnexpectedEOF)
            else src.closeErr),
      ⟨[], src.closeErr⟩) := by
  have h2 : ¬ n ≤ src.data.length := by omega
  simp only [ReadFull, h2, if_false]

theorem binaryRead_of_le (src : Stream) (h : 8 ≤ src.data.length) :
    binaryRead src
      = (Except.ok (getUint64 (src.data.take 8)), ⟨src.data.drop 8, src.closeErr⟩) := by
  simp [binaryRead, ReadFull_of_le src 8 h]

/-- With eight bytes on the stream, `ReadHTTPRequestHead` is decided by the declared length and
by `io.ReadFull` on what follows. -/
theorem ReadHTTPRequestHead_of_le (src : Stream) (h : 8 ≤ src.data.length) :
    ReadHTTPRequestHead src =
      if getUint64 (src.data.take 8) > 10485760 then
        (Except.error HeadError.headTooLarge, ⟨src.data.drop 8, src.closeErr⟩)
      else if getUint64 (src.data.take 8) ≤ (src.data.drop 8).length then
        (Except.ok ((src.data.drop 8).take (getUint64 (src.data.take 8))),
          ⟨(src.data.drop 8).drop (getUint64 (src.data.take 8)), src.closeErr⟩)
      else
        (Except.error (HeadError.io
          (if src.closeErr = GoError.EOF then
             (if (src.data.drop 8).length = 0 then GoError.EOF else GoError.ErrUnexpectedEOF)
           else src.closeErr)), ⟨[], src.closeErr⟩) := by
  simp only [ReadHTTPRequestHead, binaryRead_of_le src h, shift_const]
  by_cases hbig : getUint64 (src.data.take 8) > 10485760
  · simp [hbig]
  · simp only [hbig, if_false]
    by_cases hlen : getUint64 (src.data.take 8) ≤ (src.data.drop 8).length
    · simp only [hlen, if_true]
      rw [ReadFull_of_le _ _ (by simpa using hlen)]
    · simp only [hlen, if_false]
      rw [ReadFull_of_lt _ _ (by simpa using hlen)]

/-- A frame followed by further bytes is read back as its head, and the further bytes stay. -/
theorem ReadHTTPRequestHead_frame (h rest : List Byte) (e : GoError) (hL : h.length ≤ 10485760) :
    ReadHTTPRequestHead ⟨putUint64 h.length ++ h ++ rest, e⟩ = (Except.ok h, ⟨rest, e⟩) := by
  have h8 : 8 ≤ (putUint64 h.length ++ h ++ rest).length := by
    simp [length_putUint64]
  rw [ReadHTTPRequestHead_of_le _ h8]
  have htake : (putUint64 h.length ++ h ++ rest).take 8 = putUint64 h.length := by
    rw [List.append_assoc, List.take_left' (length_putUint64 _)]
  have hdrop : (putUint64 h.length ++ h ++ rest).drop 8 = h ++ rest := by
    rw [List.append_assoc, List.drop_left' (length_putUint64 _)]
  have hn : getUint64 (putUint64 h.length) = h.length :=
    getUint64_putUint64 _ (by omega)
  simp only [htake, hdrop, hn]
  rw [if_neg (by omega), if_pos (by simp)]
  simp [List.take_left', List.drop_left']

theorem Writer.Write_of_accepts (w : Writer) (p : List Byte) (h : w.accepts p.length) :
    w.Write p = (⟨w.written ++ p, w.room.map (fun k => k - p.length)⟩, p.length, none) := by
  rcases w with ⟨written, room⟩
  cases room with
  | none => simp [Writer.Write]
  | some k =>
    have hk : p.length ≤ k := h
    simp [Writer.Write, hk]

theorem WriteHTTPRequestHead_of_accepts (headerWrite : List (GoString × List GoString) → GoString)
    (dst : Writer) (r : HeadRequest)
    (hL : (headBytes headerWrite r).length ≤ 10485760)
    (hroom : dst.accepts (8 + (headBytes headerWrite r).length)) :
    WriteHTTPRequestHead headerWrite dst r
      = (⟨dst.written ++ putUint64 (headBytes headerWrite r).length ++ headBytes headerWrite r,
           dst.room.map (fun k => k - 8 - (headBytes headerWrite r).length)⟩,
         ((headBytes headerWrite r).length : Int), none) := by
  have hu : uint64 (headBytes headerWrite r).length = (headBytes headerWrite r).length :=
    Nat.mod_eq_of_lt (by omega)
  have h1 : dst.accepts (putUint64 (headBytes headerWrite r).length).length := by
    rcases dst with ⟨written, room⟩
    cases room with
    | none => trivial
    | some k =>
      have : 8 + (headBytes headerWrite r).length ≤ k := hroom
      show 8 ≤ k
      omega
  have h2 : Writer.accepts ⟨dst.written ++ putUint64 (headBytes headerWrite r).length,
      dst.room.map (fun k => k - (putUint64 (headBytes headerWrite r).length).length)⟩
      (headBytes headerWrite r).length := by
    rcases dst with ⟨written, room⟩
    cases room with
    | none => trivial
    | some k =>
      have : 8 + (headBytes headerWrite r).length ≤ k := hroom
      show (headBytes headerWrite r).length ≤ k - 8
      omega
  simp only [WriteHTTPRequestHead, binaryWrite, hu, Writer.Write_of_accepts _ _ h1,
    Writer.Write_of_accepts _ _ h2]
  rcases dst with ⟨written, room⟩
  cases room <;> simp [length_putUint64]

/-- C1 (round trip of the framer): when the serialized head `H` is at most 10485760 bytes long and
the writer takes all `8 + L` bytes, `WriteHTTPRequestHead` reports `L` bytes and no error, appends
exactly the eight-byte length followed by `H`, and `ReadHTTPRequestHead` on exactly the appended
bytes succeeds with a reader holding `H`, leaving nothing unread. -/
theorem WriteHTTPRequestHead_ReadHTTPRequestHead_roundtrip
    (headerWrite : List (GoString × List GoString) → GoString)
    (dst : Writer) (r : HeadRequest) (e : GoError)
    (hL : (headBytes headerWrite r).length ≤ 10485760)
    (hroom : dst.accepts (8 + (headBytes headerWrite r).length)) :
    (WriteHTTPRequestHead headerWrite dst r).2.1 = ((headBytes headerWrite r).length : Int)
    ∧ (WriteHTTPRequestHead headerWrite dst r).2.2 = none
    ∧ (WriteHTTPRequestHead headerWrite dst r).1.written
        = dst.written ++ (putUint64 (headBytes headerWrite r).length ++ headBytes headerWrite r)
    ∧ ReadHTTPRequestHead
        ⟨(WriteHTTPRequestHead headerWrite dst r).1.written.drop dst.written.length, e⟩
        = (Except.ok (headBytes headerWrite r), ⟨[], e⟩) := by
  rw [WriteHTTPRequestHead_of_accepts headerWrite dst r hL hroom]
  refine ⟨rfl, rfl, by simp, ?_⟩
  have h := ReadHTTPRequestHead_frame (headBytes headerWrite r) [] e hL
  simpa [List.append_assoc] using h

/-- Witness for C1: `GET / HTTP/1.1` with no headers, written to a writer with room for 100 bytes. -/
theorem WriteHTTPRequestHead_ReadHTTPRequestHead_roundtrip_witness :
    (WriteHTTPRequestHead (fun _ => []) ⟨[7], some 100⟩ ⟨lit "GET", [], 1, 1, []⟩).2.1 = 18
    ∧ ReadHTTPRequestHead
        ⟨(WriteHTTPRequestHead (fun _ => []) ⟨[7], some 100⟩
            ⟨lit "GET", [], 1, 1, []⟩).1.written.drop 1, GoError.EOF⟩
        = (Except.ok (lit "GET / HTTP/1.1\r\n\r\n"), ⟨[], GoError.EOF⟩) := by
  have h := WriteHTTPRequestHead_ReadHTTPRequestHead_roundtrip (fun _ => []) ⟨[7], some 100⟩
    ⟨lit "GET", [], 1, 1, []⟩ GoError.EOF (by decide) (by decide)
  exact ⟨h.1, h.2.2.2⟩

/-- C2 (bound enforcement): on a stream that supplies at least eight bytes, `ReadHTTPRequestHead`
fails with the too-large error exactly when the big-endian number in the first eight bytes exceeds
10485760, and then the stream has lost exactly those eight bytes. -/
theorem ReadHTTPRequestHead_tooLarge_iff (src : Stream) (h8 : 8 ≤ src.data.length) :
    ((ReadHTTPRequestHead src).1 = Except.error HeadError.headTooLarge
        ↔ getUint64 (src.data.take 8) > 10485760)
    ∧ ((ReadHTTPRequestHead src).1 = Except.error HeadError.headTooLarge →
        (ReadHTTPRequestHead src).2 = ⟨src.data.drop 8, src.closeErr⟩) := by
  rw [ReadHTTPRequestHead_of_le src h8]
  by_cases hbig : getUint64 (src.data.take 8) > 10485760
  · simp [hbig]
  · by_cases hlen : getUint64 (src.data.take 8) ≤ (src.data.drop 8).length
    · simp only [hbig, hlen, if_true, if_false]
      simp
    · simp only [hbig, hlen, if_false]
      simp

/-- Witness for C2: a declared length of 10485761 is refused, 10485760 is not. -/
theorem ReadHTTPRequestHead_tooLarge_iff_witness :
    (ReadHTTPRequestHead ⟨[0, 0, 0, 0, 0, 160, 0, 1, 5], GoError.EOF⟩).1
        = Except.error HeadError.headTooLarge
    ∧ (ReadHTTPRequestHead ⟨[0, 0, 0, 0, 0, 160, 0, 1, 5], GoError.EOF⟩).2
        = ⟨[5], GoError.EOF⟩
    ∧ (ReadHTTPRequestHead ⟨[0, 0, 0, 0, 0, 160, 0, 0, 5], GoError.EOF⟩).1
        ≠ Except.error HeadError.headTooLarge := by
  have h := ReadHTTPRequestHead_tooLarge_iff ⟨[0, 0, 0, 0, 0, 160, 0, 1, 5], GoError.EOF⟩
    (by decide)
  have h2 := ReadHTTPRequestHead_tooLarge_iff ⟨[0, 0, 0, 0, 0, 160, 0, 0, 5], GoError.EOF⟩
    (by decide)
  exact ⟨h.1.2 (by decide), h.2 (h.1.2 (by decide)), fun hc => absurd (h2.1.1 hc) (by decide)⟩

/-- C3 (exact read): on a stream whose first eight bytes declare `N ≤ 10485760`,
`ReadHTTPRequestHead` succeeds exactly when at least `N` more bytes follow; with fewer it returns
an error; on success the reader holds exactly the `N` bytes after the length and the stream has
lost exactly `8 + N` bytes, so that all later bytes are still there. -/
theorem ReadHTTPRequestHead_exact (src : Stream) (h8 : 8 ≤ src.data.length)
    (hN : getUint64 (src.data.take 8) ≤ 10485760) :
    ((∃ b, (ReadHTTPRequestHead src).1 = Except.ok b)
        ↔ getUint64 (src.data.take 8) ≤ (src.data.drop 8).length)
    ∧ ((src.data.drop 8).length < getUint64 (src.data.take 8) →
        ∃ err, (ReadHTTPRequestHead src).1 = Except.error err)
    ∧ (getUint64 (src.data.take 8) ≤ (src.data.drop 8).length →
        ReadHTTPRequestHead src
          = (Except.ok ((src.data.drop 8).take (getUint64 (src.data.take 8))),
             ⟨src.data.drop (8 + getUint64 (src.data.take 8)), src.closeErr⟩)) := by
  rw [ReadHTTPRequestHead_of_le src h8]
  have hbig : ¬ getUint64 (src.data.take 8) > 10485760 := by omega
  by_cases hlen : getUint64 (src.data.take 8) ≤ (src.data.drop 8).length
  · have hlt : ¬ (src.data.drop 8).length < getUint64 (src.data.take 8) := by omega
    simp only [hbig, hlen, hlt, if_true, if_false, List.drop_drop]
    simp [Nat.add_comm]
  · have hlt : (src.data.drop 8).length < getUint64 (src.data.take 8) := by omega
    simp only [hbig, hlen, hlt, if_false]
    simp

/-- Witness for C3: a declared length of 2 followed by three bytes. -/
theorem ReadHTTPRequestHead_exact_witness :
    ReadHTTPRequestHead ⟨[0, 0, 0, 0, 0, 0, 0, 2, 104, 105, 33], GoError.EOF⟩
      = (Except.ok [104, 105], ⟨[33], GoError.EOF⟩) :=
  (ReadHTTPRequestHead_exact ⟨[0, 0, 0, 0, 0, 0, 0, 2, 104, 105, 33], GoError.EOF⟩
    (by decide) (by decide)).2.2 (by decide)

/-! ## Lemmas on handleStream -/

theorem CopyLimit_of_le (src : Stream) (n : Nat) (h : n ≤ src.data.length) :
    CopyLimit src n = (src.data.take n, none, ⟨src.data.drop n, src.closeErr⟩) := by
  simp [CopyLimit, h]

theorem CopyLimit_of_lt (src : Stream) (n : Nat) (h : src.data.length < n) :
    CopyLimit src n = (src.data,
      (if src.closeErr = GoError.EOF then none else some src.closeErr), ⟨[], src.closeErr⟩) := by
  have h2 : ¬ n ≤ src.data.length := by omega
  simp only [CopyLimit, h2, if_false]

theorem CopyN_of_le (src : Stream) (n : Nat) (h : n ≤ src.data.length) :
    CopyN src n = (src.data.take n, none, ⟨src.data.drop n, src.closeErr⟩) := by
  simp [CopyN, CopyLimit_of_le src n h, h]

theorem CopyN_of_lt (src : Stream) (n : Nat) (h : src.data.length < n) :
    CopyN src n = (src.data,
      some (if src.closeErr = GoError.EOF then GoError.EOF else src.closeErr),
      ⟨[], src.closeErr⟩) := by
  have h2 : ¬ src.data.length = n := by omega
  simp only [CopyN, CopyLimit_of_lt src n h, h2, if_false, h, true_and]
  by_cases he : src.closeErr = GoError.EOF
  · simp [he]
  · simp [he]

theorem readBody_length_le (req : Request) (s : Stream) (hn : 0 < req.ContentLength)
    (h : req.ContentLength.toNat ≤ s.data.length) :
    readBody req s = (Except.ok (s.data.take req.ContentLength.toNat),
      ⟨s.data.drop req.ContentLength.toNat, s.closeErr⟩) := by
  simp [readBody, hn, CopyN_of_le s _ h]

theorem readBody_length_lt (req : Request) (s : Stream) (hn : 0 < req.ContentLength)
    (h : s.data.length < req.ContentLength.toNat) :
    readBody req s = (Except.error (if s.closeErr = GoError.EOF then GoError.EOF else s.closeErr),
      ⟨[], s.closeErr⟩) := by
  simp [readBody, hn, CopyN_of_lt s _ h]

theorem readBody_until_end (req : Request) (s : Stream) (hn : req.ContentLength ≤ 0)
    (hte : req.TransferEncoding ≠ none)
    (h : s.closeErr = GoError.EOF ∨ 10485760 ≤ s.data.length) :
    readBody req s = (Except.ok (s.data.take 10485760),
      ⟨s.data.drop 10485760, s.closeErr⟩) := by
  have hn2 : ¬ 0 < req.ContentLength := by omega
  simp only [readBody, gt_iff_lt, hn2, false_or, ne_eq, hte, not_false_eq_true, if_true,
    if_false, mul_const]
  by_cases hlen : 10485760 ≤ s.data.length
  · rw [CopyLimit_of_le s _ hlen]
  · have he : s.closeErr = GoError.EOF := by
      rcases h with h | h
      · exact h
      · exact absurd h hlen
    rw [CopyLimit_of_lt s _ (by omega)]
    simp only [he, if_true]
    rw [List.take_of_length_le (by omega), List.drop_of_length_le (by omega)]

theorem readBody_read_error (req : Request) (s : Stream) (hn : req.ContentLength ≤ 0)
    (hte : req.TransferEncoding ≠ none) (he : s.closeErr ≠ GoError.EOF)
    (hlen : s.data.length < 10485760) :
    readBody req s = (Except.error s.closeErr, ⟨[], s.closeErr⟩) := by
  have hn2 : ¬ 0 < req.ContentLength := by omega
  simp only [readBody, gt_iff_lt, hn2, false_or, ne_eq, hte, not_false_eq_true, if_true,
    if_false, mul_const]
  rw [CopyLimit_of_lt s _ hlen]
  simp only [he, if_false]

theorem readBody_no_body (req : Request) (s : Stream) (hn : req.ContentLength ≤ 0)
    (hte : req.TransferEncoding = none) :
    readBody req s = (Except.ok [], s) := by
  have hn2 : ¬ 0 < req.ContentLength := by omega
  simp [readBody, hn2, hte]

theorem handleStream_of_body (env : Env) (stream : Stream) (target : GoString)
    (head : List Byte) (s1 : Stream) (req : Request) (body : List Byte) (s2 : Stream)
    (hhead : ReadHTTPRequestHead stream = (Except.ok head, s1))
    (hreq : env.ReadRequest head = Except.ok req)
    (hbody : readBody req s1 = (Except.ok body, s2)) :
    handleStream env stream target = dialAndForward env req body s2 target := by
  simp only [handleStream, hhead, hreq, hbody]

theorem handleStream_of_body_error (env : Env) (stream : Stream) (target : GoString)
    (head : List Byte) (s1 : Stream) (req : Request) (err : GoError) (s2 : Stream)
    (hhead : ReadHTTPRequestHead stream = (Except.ok head, s1))
    (hreq : env.ReadRequest head = Except.ok req)
    (hbody : readBody req s1 = (Except.error err, s2)) :
    handleStream env stream target = ⟨[Event.closeStream], s2, none⟩ := by
  simp only [handleStream, hhead, hreq, hbody]

theorem dialAndForward_body (env : Env) (req : Request) (body : List Byte) (s2 : Stream)
    (target : GoString) : (dialAndForward env req body s2 target).body = some body := by
  unfold dialAndForward
  split
  · rfl
  · split
    · rfl
    · split <;> rfl

theorem dialAndForward_stream (env : Env) (req : Request) (body : List Byte) (s2 : Stream)
    (target : GoString) : (dialAndForward env req body s2 target).stream = s2 := by
  unfold dialAndForward
  split
  · rfl
  · split
    · rfl
    · split <;> rfl

theorem dialAndForward_dial_mem (env : Env) (req : Request) (body : List Byte) (s2 : Stream)
    (target : GoString) : Event.dial target ∈ (dialAndForward env req body s2 target).events := by
  unfold dialAndForward
  split
  · simp
  · split
    · simp
    · split <;> simp

theorem dialAndForward_forward_eq (env : Env) (req : Request) (body : List Byte) (s2 : Stream)
    (target : GoString) (r : Request) (b : List Byte)
    (h : Event.forward r b ∈ (dialAndForward env req body s2 target).events) :
    r = req ∧ b = body := by
  unfold dialAndForward at h
  split at h
  · simp at h
  · split at h
    · simpa using h
    · split at h <;> simpa using h

theorem dialAndForward_forward_mem (env : Env) (req : Request) (body : List Byte) (s2 : Stream)
    (target : GoString) (h : env.Dial target = none) :
    Event.forward req body ∈ (dialAndForward env req body s2 target).events := by
  unfold dialAndForward
  rw [h]
  simp only
  split
  · simp
  · split <;> simp

theorem dialAndForward_dial_failed (env : Env) (req : Request) (body : List Byte) (s2 : Stream)
    (target : GoString) (err : GoError) (h : env.Dial target = some err) :
    dialAndForward env req body s2 target
      = ⟨[Event.dial target, Event.writeResponse badGateway, Event.closeStream], s2, some body⟩ := by
  unfold dialAndForward
  rw [h]

/-! ## The relay: body policy -/

/-- C4 (Content-Length fidelity): for a parsed request with `ContentLength = n > 0`, when at least
`n` bytes follow the framed head the body is exactly the first `n` of them, the stream has lost
exactly those `n`, every request written to the local target carries that body, and one is written
when the dial succeeds; when fewer than `n` follow, the relay only closes the stream: no dial, no
response. -/
theorem handleStream_contentLength (env : Env) (stream : Stream) (target : GoString)
    (head : List Byte) (s1 : Stream) (req : Request)
    (hhead : ReadHTTPRequestHead stream = (Except.ok head, s1))
    (hreq : env.ReadRequest head = Except.ok req)
    (hn : 0 < req.ContentLength) :
    (req.ContentLength.toNat ≤ s1.data.length →
        (handleStream env stream target).body = some (s1.data.take req.ContentLength.toNat)
        ∧ (handleStream env stream target).stream
            = ⟨s1.data.drop req.ContentLength.toNat, s1.closeErr⟩
        ∧ (∀ r b, Event.forward r b ∈ (handleStream env stream target).events →
            r = req ∧ b = s1.data.take req.ContentLength.toNat)
        ∧ (env.Dial target = none →
            Event.forward req (s1.data.take req.ContentLength.toNat)
              ∈ (handleStream env stream target).events))
    ∧ (s1.data.length < req.ContentLength.toNat →
        (handleStream env stream target).events = [Event.closeStream]
        ∧ (handleStream env stream target).body = none) := by
  constructor
  · intro hle
    rw [handleStream_of_body env stream target head s1 req _ _ hhead hreq
      (readBody_length_le req s1 hn hle)]
    exact ⟨dialAndForward_body _ _ _ _ _, dialAndForward_stream _ _ _ _ _,
      fun r b h => dialAndForward_forward_eq _ _ _ _ _ r b h,
      fun h => dialAndForward_forward_mem _ _ _ _ _ h⟩
  · intro hlt
    rw [handleStream_of_body_error env stream target head s1 req _ _ hhead hreq
      (readBody_length_lt req s1 hn hlt)]
    exact ⟨rfl, rfl⟩

/-- Witness for C4: `Content-Length: 5`, then `hello` and one more byte on the stream. -/
theorem handleStream_contentLength_witness :
    (handleStream (exEnv headLength5 (exRequest 5 none) none)
        ⟨framed headLength5 (lit "helloX"), GoError.EOF⟩ exTarget).body = some (lit "hello")
    ∧ (handleStream (exEnv headLength5 (exRequest 5 none) none)
        ⟨framed headLength5 (lit "helloX"), GoError.EOF⟩ exTarget).stream
        = ⟨lit "X", GoError.EOF⟩
    ∧ Event.forward (exRequest 5 none) (lit "hello")
        ∈ (handleStream (exEnv headLength5 (exRequest 5 none) none)
            ⟨framed headLength5 (lit "helloX"), GoError.EOF⟩ exTarget).events := by
  have h := (handleStream_contentLength (exEnv headLength5 (exRequest 5 none) none)
    ⟨framed headLength5 (lit "helloX"), GoError.EOF⟩ exTarget headLength5
    ⟨lit "helloX", GoError.EOF⟩ (exRequest 5 none) (by decide) (by decide) (by decide)).1
    (by decide)
  exact ⟨h.1, h.2.1, h.2.2.2 rfl⟩

/-- C5, as the code has it: for a parsed request whose `ContentLength` is not positive, with a
`TransferEncoding` the body is the bytes that follow the head up to end-of-data, at most the first
10485760 of them, and the stream has lost exactly those; without a `TransferEncoding` the body is
empty and nothing is read from the stream. -/
theorem handleStream_noLength (env : Env) (stream : Stream) (target : GoString)
    (head : List Byte) (s1 : Stream) (req : Request)
    (hhead : ReadHTTPRequestHead stream = (Except.ok head, s1))
    (hreq : env.ReadRequest head = Except.ok req)
    (hn : req.ContentLength ≤ 0) :
    (req.TransferEncoding ≠ none → (s1.closeErr = GoError.EOF ∨ 10485760 ≤ s1.data.length) →
        (handleStream env stream target).body = some (s1.data.take 10485760)
        ∧ (handleStream env stream target).stream = ⟨s1.data.drop 10485760, s1.closeErr⟩
        ∧ (∀ r b, Event.forward r b ∈ (handleStream env stream target).events →
            r = req ∧ b = s1.data.take 10485760)
        ∧ (env.Dial target = none →
            Event.forward req (s1.data.take 10485760)
              ∈ (handleStream env stream target).events))
    ∧ (req.TransferEncoding = none →
        (handleStream env stream target).body = some []
        ∧ (handleStream env stream target).stream = s1
        ∧ (∀ r b, Event.forward r b ∈ (handleStream env stream target).events →
            r = req ∧ b = [])
        ∧ (env.Dial target = none →
            Event.forward req [] ∈ (handleStream env stream target).events)) := by
  constructor
  · intro hte hend
    rw [handleStream_of_body env stream target head s1 req _ _ hhead hreq
      (readBody_until_end req s1 hn hte hend)]
    exact ⟨dialAndForward_body _ _ _ _ _, dialAndForward_stream _ _ _ _ _,
      fun r b h => dialAndForward_forward_eq _ _ _ _ _ r b h,
      fun h => dialAndForward_forward_mem _ _ _ _ _ h⟩
  · intro hte
    rw [handleStream_of_body env stream target head s1 req _ _ hhead hreq
      (readBody_no_body req s1 hn hte)]
    exact ⟨dialAndForward_body _ _ _ _ _, dialAndForward_stream _ _ _ _ _,
      fun r b h => dialAndForward_forward_eq _ _ _ _ _ r b h,
      fun h => dialAndForward_forward_mem _ _ _ _ _ h⟩

/-- Witness for C5 as amended: a chunked request followed by two bytes and end-of-data. -/
theorem handleStream_noLength_witness :
    (handleStream (exEnv headChunked (exRequest (-1) (some [lit "chunked"])) none)
        ⟨framed headChunked (lit "hi"), GoError.EOF⟩ exTarget).body = some (lit "hi")
    ∧ (handleStream (exEnv headChunked (exRequest (-1) (some [lit "chunked"])) none)
        ⟨framed headChunked (lit "hi"), GoError.EOF⟩ exTarget).stream = ⟨[], GoError.EOF⟩ := by
  have h := (handleStream_noLength (exEnv headChunked (exRequest (-1) (some [lit "chunked"])) none)
    ⟨framed headChunked (lit "hi"), GoError.EOF⟩ exTarget headChunked
    ⟨lit "hi", GoError.EOF⟩ (exRequest (-1) (some [lit "chunked"])) (by decide) (by decide)
    (by decide)).1 (by decide) (Or.inl rfl)
  exact ⟨h.1, h.2.1⟩

/-- Counterexample to C5 as stated: a request with neither `Content-Length` nor
`Transfer-Encoding` (parsed `ContentLength` 0, or -1, and nil `TransferEncoding`) followed by the
two bytes `hi` and end-of-data: the relay reads none of them, and the request it forwards has an
empty body, not `hi`. -/
theorem handleStream_noLength_counterexample :
    (handleStream (exEnv headPlain (exRequest 0 none) none)
        ⟨framed headPlain (lit "hi"), GoError.EOF⟩ exTarget).body = some []
    ∧ (handleStream (exEnv headPlain (exRequest 0 none) none)
        ⟨framed headPlain (lit "hi"), GoError.EOF⟩ exTarget).stream = ⟨lit "hi", GoError.EOF⟩
    ∧ Event.forward (exRequest 0 none) []
        ∈ (handleStream (exEnv headPlain (exRequest 0 none) none)
            ⟨framed headPlain (lit "hi"), GoError.EOF⟩ exTarget).events
    ∧ Event.forward (exRequest 0 none) (lit "hi")
        ∉ (handleStream (exEnv headPlain (exRequest 0 none) none)
            ⟨framed headPlain (lit "hi"), GoError.EOF⟩ exTarget).events
    ∧ (handleStream (exEnv headPlain (exRequest (-1) none) none)
        ⟨framed headPlain (lit "hi"), GoError.EOF⟩ exTarget).body = some []
    ∧ (handleStream (exEnv headPlain (exRequest (-1) none) none)
        ⟨framed headPlain (lit "hi"), GoError.EOF⟩ exTarget).stream
        = ⟨lit "hi", GoError.EOF⟩ := by
  refine ⟨by decide, by decide, by decide, by decide, by decide, by decide⟩

/-! ## The relay: the 10 MiB limit -/

theorem bigBody_length : bigBody.length = 10485761 := by
  unfold bigBody
  exact List.length_replicate _ _

theorem handleStream_framed (env : Env) (head rest : List Byte) (e : GoError) (req : Request)
    (body : List Byte) (s2 : Stream) (target : GoString) (hL : head.length ≤ 10485760)
    (hreq : env.ReadRequest head = Except.ok req)
    (hbody : readBody req ⟨rest, e⟩ = (Except.ok body, s2)) :
    handleStream env ⟨framed head rest, e⟩ target = dialAndForward env req body s2 target :=
  handleStream_of_body env _ target head ⟨rest, e⟩ req body s2
    (ReadHTTPRequestHead_frame head rest e hL) hreq hbody

/-- C6, as the code has it: when the body is read until end-of-data and more than 10485760 bytes
follow the head, the relay does not abort: the body is exactly the first 10485760 bytes, the rest
stays unread, and the relay dials the local target, forwarding that body when the dial succeeds and
answering with the 502 response when it fails. -/
theorem handleStream_cap_truncates (env : Env) (stream : Stream) (target : GoString)
    (head : List Byte) (s1 : Stream) (req : Request)
    (hhead : ReadHTTPRequestHead stream = (Except.ok head, s1))
    (hreq : env.ReadRequest head = Except.ok req)
    (hn : req.ContentLength ≤ 0) (hte : req.TransferEncoding ≠ none)
    (hbig : 10485760 < s1.data.length) :
    (handleStream env stream target).body = some (s1.data.take 10485760)
    ∧ (handleStream env stream target).stream = ⟨s1.data.drop 10485760, s1.closeErr⟩
    ∧ Event.dial target ∈ (handleStream env stream target).events
    ∧ (env.Dial target = none →
        Event.forward req (s1.data.take 10485760) ∈ (handleStream env stream target).events)
    ∧ (env.Dial target ≠ none →
        (handleStream env stream target).events
          = [Event.dial target, Event.writeResponse badGateway, Event.closeStream]) := by
  rw [handleStream_of_body env stream target head s1 req _ _ hhead hreq
    (readBody_until_end req s1 hn hte (Or.inr (by omega)))]
  refine ⟨dialAndForward_body _ _ _ _ _, dialAndForward_stream _ _ _ _ _,
    dialAndForward_dial_mem _ _ _ _ _, fun h => dialAndForward_forward_mem _ _ _ _ _ h, ?_⟩
  intro h
  cases hd : env.Dial target with
  | none => exact absurd hd h
  | some err => rw [dialAndForward_dial_failed _ _ _ _ _ err hd]

/-- Witness for C6 as amended: a chunked request followed by 10485761 bytes, with a local target
that refuses the connection: the relay still dials and answers 502. -/
theorem handleStream_cap_truncates_witness :
    (handleStream
        (exEnv headChunked (exRequest (-1) (some [lit "chunked"]))
          (some (GoError.other "connection refused")))
        ⟨framed headChunked bigBody, GoError.EOF⟩ exTarget).events
      = [Event.dial exTarget, Event.writeResponse badGateway, Event.closeStream]
    ∧ (handleStream
        (exEnv headChunked (exRequest (-1) (some [lit "chunked"]))
          (some (GoError.other "connection refused")))
        ⟨framed headChunked bigBody, GoError.EOF⟩ exTarget).body
      = some (bigBody.take 10485760) := by
  have h := handleStream_cap_truncates
    (exEnv headChunked (exRequest (-1) (some [lit "chunked"]))
      (some (GoError.other "connection refused")))
    ⟨framed headChunked bigBody, GoError.EOF⟩ exTarget headChunked ⟨bigBody, GoError.EOF⟩
    (exRequest (-1) (some [lit "chunked"]))
    (ReadHTTPRequestHead_frame headChunked bigBody GoError.EOF (by decide))
    (by decide) (by decide) (by decide)
    (by rw [bigBody_length]; decide)
  exact ⟨h.2.2.2.2 (by simp [exEnv]), h.1⟩

/-- Counterexample to C6 as stated: a chunked request followed by 10485761 body bytes, then the
end of the data.  The relay does dial the local target and forwards a request, whose body is the
first 10485760 of those bytes. -/
theorem handleStream_cap_counterexample :
    Event.dial exTarget
      ∈ (handleStream (exEnv headChunked (exRequest (-1) (some [lit "chunked"])) none)
          ⟨framed headChunked bigBody, GoError.EOF⟩ exTarget).events
    ∧ Event.forward (exRequest (-1) (some [lit "chunked"])) (bigBody.take 10485760)
      ∈ (handleStream (exEnv headChunked (exRequest (-1) (some [lit "chunked"])) none)
          ⟨framed headChunked bigBody, GoError.EOF⟩ exTarget).events
    ∧ (handleStream (exEnv headChunked (exRequest (-1) (some [lit "chunked"])) none)
          ⟨framed headChunked bigBody, GoError.EOF⟩ exTarget).events ≠ [Event.closeStream] := by
  have hb : readBody (exRequest (-1) (some [lit "chunked"])) ⟨bigBody, GoError.EOF⟩
      = (Except.ok (bigBody.take 10485760), ⟨bigBody.drop 10485760, GoError.EOF⟩) :=
    readBody_until_end _ _ (by decide) (by decide) (Or.inl rfl)
  rw [handleStream_framed (exEnv headChunked (exRequest (-1) (some [lit "chunked"])) none)
    headChunked bigBody GoError.EOF _ _ _ exTarget (by decide) (by decide) hb]
  refine ⟨dialAndForward_dial_mem _ _ _ _ _, dialAndForward_forward_mem _ _ _ _ _ rfl, ?_⟩
  intro h
  have hm := dialAndForward_dial_mem
    (exEnv headChunked (exRequest (-1) (some [lit "chunked"])) none)
    (exRequest (-1) (some [lit "chunked"])) (bigBody.take 10485760)
    ⟨bigBody.drop 10485760, GoError.EOF⟩ exTarget
  rw [h] at hm
  simp at hm

theorem readBody_length_bound (req : Request) (s s2 : Stream) (b : List Byte)
    (h : readBody req s = (Except.ok b, s2)) :
    (req.ContentLength ≤ 0 → b.length ≤ 10485760)
    ∧ (0 < req.ContentLength → b.length = req.ContentLength.toNat) := by
  constructor
  · intro hn
    by_cases hte : req.TransferEncoding = none
    · rw [readBody_no_body req s hn hte] at h
      have hb : ([] : List Byte) = b := by injection (Prod.mk.inj h).1
      rw [← hb]
      simp
    · by_cases hend : s.closeErr = GoError.EOF ∨ 10485760 ≤ s.data.length
      · rw [readBody_until_end req s hn hte hend] at h
        have hb : s.data.take 10485760 = b := by injection (Prod.mk.inj h).1
        rw [← hb, List.length_take]
        omega
      · have he : s.closeErr ≠ GoError.EOF := fun hc => hend (Or.inl hc)
        have hl : s.data.length < 10485760 := by
          by_contra hc
          exact hend (Or.inr (by omega))
        rw [readBody_read_error req s hn hte he hl] at h
        exact absurd (Prod.mk.inj h).1 (by simp)
  · intro hn
    by_cases hle : req.ContentLength.toNat ≤ s.data.length
    · rw [readBody_length_le req s hn hle] at h
      have hb : s.data.take req.ContentLength.toNat = b := by injection (Prod.mk.inj h).1
      rw [← hb, List.length_take]
      omega
    · rw [readBody_length_lt req s hn (by omega)] at h
      exact absurd (Prod.mk.inj h).1 (by simp)

theorem handleStream_body_of_some (env : Env) (stream : Stream) (target : GoString)
    (head : List Byte) (s1 : Stream) (req : Request) (b : List Byte)
    (hhead : ReadHTTPRequestHead stream = (Except.ok head, s1))
    (hreq : env.ReadRequest head = Except.ok req)
    (hb : (handleStream env stream target).body = some b) :
    ∃ s2, readBody req s1 = (Except.ok b, s2) := by
  cases hrb : readBody req s1 with
  | mk res s2 =>
    cases res with
    | error err =>
      rw [handleStream_of_body_error env stream target head s1 req err s2 hhead hreq hrb] at hb
      exact absurd hb (by simp)
    | ok body =>
      rw [handleStream_of_body env stream target head s1 req body s2 hhead hreq hrb,
        dialAndForward_body] at hb
      have hbb : body = b := by injection hb
      exact ⟨s2, by rw [hbb]⟩

/-- C7, as the code has it: the body that `handleStream` holds before it dials is at most 10485760
bytes long when the parsed `ContentLength` is not positive; when `ContentLength` is `n > 0` the body
is exactly `n` bytes long, whatever `n` is. -/
theorem handleStream_body_length (env : Env) (stream : Stream) (target : GoString)
    (head : List Byte) (s1 : Stream) (req : Request) (b : List Byte)
    (hhead : ReadHTTPRequestHead stream = (Except.ok head, s1))
    (hreq : env.ReadRequest head = Except.ok req)
    (hb : (handleStream env stream target).body = some b) :
    (req.ContentLength ≤ 0 → b.length ≤ 10485760)
    ∧ (0 < req.ContentLength → b.length = req.ContentLength.toNat) := by
  obtain ⟨s2, h⟩ := handleStream_body_of_some env stream target head s1 req b hhead hreq hb
  exact readBody_length_bound req s1 s2 b h

/-- Witness for C7 as amended: `Content-Length: 5` gives a body of five bytes. -/
theorem handleStream_body_length_witness :
    (handleStream (exEnv headLength5 (exRequest 5 none) none)
        ⟨framed headLength5 (lit "helloX"), GoError.EOF⟩ exTarget).body = some (lit "hello")
    ∧ (lit "hello").length = (exRequest 5 none).ContentLength.toNat :=
  ⟨by decide,
   (handleStream_body_length (exEnv headLength5 (exRequest 5 none) none)
    ⟨framed headLength5 (lit "helloX"), GoError.EOF⟩ exTarget headLength5
    ⟨lit "helloX", GoError.EOF⟩ (exRequest 5 none) (lit "hello")
    (by decide) (by decide) (by decide)).2 (by decide)⟩

/-- Counterexample to C7 as stated: a head that declares `Content-Length: 10485761`, followed by
that many bytes.  The body the relay holds is all 10485761 bytes, more than 10 MiB. -/
theorem handleStream_body_length_counterexample :
    (handleStream (exEnv headLengthBig (exRequest 10485761 none) none)
        ⟨framed headLengthBig bigBody, GoError.EOF⟩ exTarget).body = some bigBody
    ∧ 10485760 < bigBody.length := by
  have hle : (exRequest 10485761 none).ContentLength.toNat
      ≤ (Stream.mk bigBody GoError.EOF).data.length := by
    show (10485761 : Int).toNat ≤ bigBody.length
    rw [bigBody_length]
    decide
  have hb := readBody_length_le (exRequest 10485761 none) ⟨bigBody, GoError.EOF⟩ (by decide) hle
  rw [handleStream_framed (exEnv headLengthBig (exRequest 10485761 none) none)
    headLengthBig bigBody GoError.EOF _ _ _ exTarget (by decide) (by decide) hb,
    dialAndForward_body]
  constructor
  · have ht : (Stream.mk bigBody GoError.EOF).data.take
        (exRequest 10485761 none).ContentLength.toNat = bigBody :=
      List.take_of_length_le (by
        show bigBody.length ≤ (10485761 : Int).toNat
        rw [bigBody_length]
        decide)
    rw [ht]
  · rw [bigBody_length]
    decide

/-! ## The relay: local target unreachable -/

/-- C8 (local target unreachable): once head and body are read, a failing `net.Dial` makes the relay
dial once, write one response and close the stream, nothing else; that response has status 502,
protocol HTTP/1.1, the single header `Content-Type: text/plain`, and the body
`local target unavailable`; no request is written to the local target. -/
theorem handleStream_dial_failure (env : Env) (stream : Stream) (target : GoString)
    (head : List Byte) (s1 : Stream) (req : Request) (body : List Byte) (s2 : Stream)
    (err : GoError)
    (hhead : ReadHTTPRequestHead stream = (Except.ok head, s1))
    (hreq : env.ReadRequest head = Except.ok req)
    (hbody : readBody req s1 = (Except.ok body, s2))
    (hdial : env.Dial target = some err) :
    (handleStream env stream target).events
        = [Event.dial target, Event.writeResponse badGateway, Event.closeStream]
    ∧ badGateway.StatusCode = 502
    ∧ badGateway.Proto = lit "HTTP/1.1" ∧ badGateway.ProtoMajor = 1 ∧ badGateway.ProtoMinor = 1
    ∧ badGateway.Header = [(lit "Content-Type", [lit "text/plain"])]
    ∧ badGateway.Body = lit "local target unavailable"
    ∧ (handleStream env stream target).events.countP Event.isDial = 1
    ∧ (handleStream env stream target).events.countP Event.isWriteResponse = 1
    ∧ (handleStream env stream target).events.countP Event.isForward = 0 := by
  rw [handleStream_of_body env stream target head s1 req body s2 hhead hreq hbody,
    dialAndForward_dial_failed env req body s2 target err hdial]
  refine ⟨rfl, rfl, rfl, rfl, rfl, by decide, rfl, ?_, ?_, ?_⟩ <;>
    simp [Event.isDial, Event.isWriteResponse, Event.isForward]

/-- Witness for C8: `Content-Length: 5` and `hello` on the stream, connection refused locally. -/
theorem handleStream_dial_failure_witness :
    (handleStream (exEnv headLength5 (exRequest 5 none) (some (GoError.other "connection refused")))
        ⟨framed headLength5 (lit "hello"), GoError.EOF⟩ exTarget).events
      = [Event.dial exTarget, Event.writeResponse badGateway, Event.closeStream] :=
  (handleStream_dial_failure
    (exEnv headLength5 (exRequest 5 none) (some (GoError.other "connection refused")))
    ⟨framed headLength5 (lit "hello"), GoError.EOF⟩ exTarget headLength5
    ⟨lit "hello", GoError.EOF⟩ (exRequest 5 none) (lit "hello") ⟨[], GoError.EOF⟩
    (GoError.other "connection refused") (by decide) (by decide) (by decide) rfl).1

/-! ## The result of runConnect -/

theorem acceptLoop_stops (streams : List Stream) (err : GoError)
    (rest : List (Except GoError Stream)) :
    acceptLoop (streams.map Except.ok ++ Except.error err :: rest) = (streams, some err) := by
  induction streams with
  | nil => rfl
  | cons s t ih => simp [acceptLoop, ih]

/-- C9, as the code has it: the accept loop hands over every stream accepted before the first
error of `AcceptStream` and sends that error on; `runConnect` returns that error when it is not
`io.EOF`, and returns nil both for `io.EOF` and for the shutdown signal. -/
theorem runConnectSelect_result (streams : List Stream) (err : GoError)
    (rest : List (Except GoError Stream)) :
    acceptLoop (streams.map Except.ok ++ Except.error err :: rest) = (streams, some err)
    ∧ runConnectSelect
        (Wakeup.errCh (acceptLoop (streams.map Except.ok ++ Except.error err :: rest)).2)
        = (if err = GoError.EOF then none else some err)
    ∧ runConnectSelect Wakeup.signal = none := by
  rw [acceptLoop_stops]
  refine ⟨rfl, ?_, rfl⟩
  by_cases he : err = GoError.EOF
  · simp [runConnectSelect, he]
  · simp [runConnectSelect, he]

/-- Counterexample to C9 as stated: when `AcceptStream` fails with `io.EOF`, `runConnect` returns
nil, the same result as on the shutdown signal. -/
theorem runConnectSelect_counterexample :
    (acceptLoop [Except.error GoError.EOF]).2 = some GoError.EOF
    ∧ runConnectSelect (Wakeup.errCh (acceptLoop [Except.error GoError.EOF]).2) = none
    ∧ runConnectSelect (Wakeup.errCh (acceptLoop [Except.error GoError.EOF]).2)
        = runConnectSelect Wakeup.signal := by
  refine ⟨by decide, by decide, by decide⟩

/-! ## Configuration -/

/-- C10 (configuration priority): whenever the configuration loads (no file, or a file that
parses), the token `runConnect` uses is the flag when non-empty, else `TUNNY_TOKEN` when non-empty,
else the token of the file, else the empty default; the subdomain follows the same order with
`TUNNY_SUBDOMAIN`. -/
theorem runConnectConfig_priority (token subdomain : GoString) (getenv : GoString → GoString)
    (fileToken fileSubdomain : Option GoString) :
    runConnectConfig token subdomain (ConfigFile.object fileToken fileSubdomain) getenv
      = Except.ok
          ((if token ≠ [] then token
            else if getenv (lit "TUNNY_TOKEN") ≠ [] then getenv (lit "TUNNY_TOKEN")
            else fileToken.getD []),
           (if subdomain ≠ [] then subdomain
            else if getenv (lit "TUNNY_SUBDOMAIN") ≠ [] then getenv (lit "TUNNY_SUBDOMAIN")
            else fileSubdomain.getD []))
    ∧ runConnectConfig token subdomain ConfigFile.notExist getenv
      = Except.ok
          ((if token ≠ [] then token
            else if getenv (lit "TUNNY_TOKEN") ≠ [] then getenv (lit "TUNNY_TOKEN")
            else []),
           (if subdomain ≠ [] then subdomain
            else if getenv (lit "TUNNY_SUBDOMAIN") ≠ [] then getenv (lit "TUNNY_SUBDOMAIN")
            else [])) := by
  constructor
  · simp only [runConnectConfig, LoadConfig, loadConfigFile, loadFromEnv, DefaultConfig]
    by_cases ht : token = [] <;> by_cases hs : subdomain = [] <;>
      by_cases het : getenv (lit "TUNNY_TOKEN") = [] <;>
      by_cases hes : getenv (lit "TUNNY_SUBDOMAIN") = [] <;>
      simp [ht, hs, het, hes]
  · simp only [runConnectConfig, LoadConfig, loadConfigFile, loadFromEnv, DefaultConfig,
      IsNotExist]
    by_cases ht : token = [] <;> by_cases hs : subdomain = [] <;>
      by_cases het : getenv (lit "TUNNY_TOKEN") = [] <;>
      by_cases hes : getenv (lit "TUNNY_SUBDOMAIN") = [] <;>
      simp [ht, hs, het, hes]

end Tunny
